import Mathlib

/-!
Verification development for the event-broker core (TypeScript sources under
`src/core` and `src/hooks`), shallowly embedded in Lean.

JavaScript `Map` objects are modelled as association lists that preserve
insertion order (`Map.set` updates an existing key in place, otherwise
appends; `Map.delete` removes the entry).  JavaScript `Set` objects are
modelled as lists without the broker ever inserting duplicates (`Set.add`
appends only when absent, `Set.delete` removes the element).
-/

universe u v

/-- JS `Map.get`: value of the first entry with the given key, if any. -/
def mapGet {α : Type u} : List (String × α) → String → Option α
  | [], _ => none
  | (k', v') :: rest, k => if k' = k then some v' else mapGet rest k

/-- JS `Map.set`: replace the value of an existing key in place, otherwise
append a fresh entry at the end (insertion order preserved). -/
def mapSet {α : Type u} : List (String × α) → String → α → List (String × α)
  | [], k, v => [(k, v)]
  | (k', v') :: rest, k, v =>
      if k' = k then (k, v) :: rest else (k', v') :: mapSet rest k v

/-- JS `Map.delete`: drop the entry with the given key. -/
def mapDelete {α : Type u} (m : List (String × α)) (k : String) : List (String × α) :=
  m.filter (fun p => p.1 ≠ k)

/-- JS `Map.keys()` in insertion order. -/
def mapKeys {α : Type u} (m : List (String × α)) : List String :=
  m.map (fun p => p.1)

/-- JS `Set.has`. -/
def setHas : List String → String → Bool
  | [], _ => false
  | x :: xs, y => if x = y then true else setHas xs y

/-- JS `Set.add`: append when absent, otherwise leave the set unchanged. -/
def setAdd (l : List String) (x : String) : List String :=
  if setHas l x then l else l ++ [x]

/-- JS `Set.delete`. -/
def setDelete (l : List String) (x : String) : List String :=
  l.filter (fun y => y ≠ x)

-- ==========================================================================
-- Subscriptions (src/core/Subscriptions.ts)
-- ==========================================================================

/-- The `Subscriptions` class state.  `H` is the (opaque) handler type: the
index stores handlers but never calls them.
Fields mirror the three private maps of the class. -/
structure Subscriptions (H : Type u) where
  /-- `#subscriptions`: event type → set of subscribed client ids. -/
  subscriptions : List (String × List String)
  /-- `#clientSubscriptions`: client id → set of subscribed event types. -/
  clientSubscriptions : List (String × List String)
  /-- `#handlers`: composite key `clientId:eventType` → handler. -/
  handlers : List (String × H)
deriving Repr

/-- Fresh instance: all three maps empty. -/
def Subscriptions.empty (H : Type u) : Subscriptions H := ⟨[], [], []⟩

/-- `#getHandlerKey`: the composite key is the string `clientId:eventType`. -/
def handlerKey (clientId eventType : String) : String :=
  clientId ++ ":" ++ eventType

/-- `Subscriptions.subscribe`. -/
def Subscriptions.subscribe {H : Type u} (s : Subscriptions H)
    (clientId eventType : String) (handler : H) : Subscriptions H :=
  let subsMap :=
    match mapGet s.subscriptions eventType with
    | none => mapSet s.subscriptions eventType (setAdd [] clientId)
    | some cs => mapSet s.subscriptions eventType (setAdd cs clientId)
  let clientMap :=
    match mapGet s.clientSubscriptions clientId with
    | none => mapSet s.clientSubscriptions clientId (setAdd [] eventType)
    | some es => mapSet s.clientSubscriptions clientId (setAdd es eventType)
  { subscriptions := subsMap
    clientSubscriptions := clientMap
    handlers := mapSet s.handlers (handlerKey clientId eventType) handler }

/-- `Subscriptions.unsubscribe`: remove from both indexes, delete the stored
handler, then prune the event entry when its subscriber set became empty. -/
def Subscriptions.unsubscribe {H : Type u} (s : Subscriptions H)
    (clientId eventType : String) : Subscriptions H :=
  let subsMap :=
    match mapGet s.subscriptions eventType with
    | none => s.subscriptions
    | some cs => mapSet s.subscriptions eventType (setDelete cs clientId)
  let clientMap :=
    match mapGet s.clientSubscriptions clientId with
    | none => s.clientSubscriptions
    | some es => mapSet s.clientSubscriptions clientId (setDelete es eventType)
  let handlers := mapDelete s.handlers (handlerKey clientId eventType)
  let subsMap2 :=
    match mapGet subsMap eventType with
    | some [] => mapDelete subsMap eventType
    | _ => subsMap
  { subscriptions := subsMap2, clientSubscriptions := clientMap, handlers := handlers }

/-- Body of the `for (const eventType of clientEvents)` loop inside
`Subscriptions.unregisterClient`. -/
def Subscriptions.removeClientFromEvent {H : Type u} (clientId : String)
    (st : Subscriptions H) (eventType : String) : Subscriptions H :=
  let m1 :=
    match mapGet st.subscriptions eventType with
    | none => st.subscriptions
    | some cs => mapSet st.subscriptions eventType (setDelete cs clientId)
  let m2 :=
    match mapGet m1 eventType with
    | some [] => mapDelete m1 eventType
    | _ => m1
  { st with subscriptions := m2
            handlers := mapDelete st.handlers (handlerKey clientId eventType) }

/-- `Subscriptions.unregisterClient`: iterate the client's own subscription
set, then drop the client's entry from the client index. -/
def Subscriptions.unregisterClient {H : Type u} (s : Subscriptions H)
    (clientId : String) : Subscriptions H :=
  let state' :=
    match mapGet s.clientSubscriptions clientId with
    | none => s
    | some es => es.foldl (Subscriptions.removeClientFromEvent clientId) s
  { state' with
      clientSubscriptions := mapDelete state'.clientSubscriptions clientId }

/-- `Subscriptions.isSubscribed`: `#clientSubscriptions.get(clientId)?.has(eventType) ?? false`. -/
def Subscriptions.isSubscribed {H : Type u} (s : Subscriptions H)
    (clientId eventType : String) : Bool :=
  match mapGet s.clientSubscriptions clientId with
  | none => false
  | some es => setHas es eventType

/-- `Subscriptions.getHandler`: point lookup under the composite key. -/
def Subscriptions.getHandler {H : Type u} (s : Subscriptions H)
    (clientId eventType : String) : Option H :=
  mapGet s.handlers (handlerKey clientId eventType)

/-- `Subscriptions.getSubscribersExcept`: the event's subscriber set with one
client filtered out. -/
def Subscriptions.getSubscribersExcept {H : Type u} (s : Subscriptions H)
    (eventType excludeClientId : String) : List String :=
  ((mapGet s.subscriptions eventType).getD []).filter
    (fun clientId => clientId ≠ excludeClientId)

/-- `Subscriptions.getAllSubscribedClients`: keys of the client index. -/
def Subscriptions.getAllSubscribedClients {H : Type u} (s : Subscriptions H) :
    List String :=
  mapKeys s.clientSubscriptions

/-- `Subscriptions.getAllSubscriptions`: the client index as a record
(clientId → array of event types), insertion order preserved. -/
def Subscriptions.getAllSubscriptions {H : Type u} (s : Subscriptions H) :
    List (String × List String) :=
  s.clientSubscriptions

/-- `Subscriptions.clear`. -/
def Subscriptions.clear {H : Type u} (_s : Subscriptions H) : Subscriptions H :=
  ⟨[], [], []⟩

-- ==========================================================================
-- Interleaved subscribe/unsubscribe call sequences (claim C1)
-- ==========================================================================

/-- One call to the Subscription Index: `subscribe` or `unsubscribe`. -/
inductive SubOp (H : Type u) where
  | sub (clientId eventType : String) (handler : H)
  | unsub (clientId eventType : String)

/-- The composite handler key the call touches. -/
def SubOp.key {H : Type u} : SubOp H → String
  | .sub c e _ => handlerKey c e
  | .unsub c e => handlerKey c e

/-- Interpret one call on the index state. -/
def SubOp.apply {H : Type u} (s : Subscriptions H) : SubOp H → Subscriptions H
  | .sub c e h => s.subscribe c e h
  | .unsub c e => s.unsubscribe c e

/-- Run a sequence of interleaved calls left to right. -/
def runOps {H : Type u} (s : Subscriptions H) (ops : List (SubOp H)) : Subscriptions H :=
  ops.foldl SubOp.apply s

-- ==========================================================================
-- Event / result data model (src/core/types.ts, EventBroker.#createEvent,
-- EventBroker.#createResult)
-- ==========================================================================

/-- Delivery status of an `EventResult`. -/
inductive Status where
  | ACK
  | NACK
deriving DecidableEq, Repr

/-- The CloudEvents-shaped envelope (`Event<T, P>`); `V` is the payload type.
`recipient` models the `mfe-recipient` extension ('*' for broadcast) and
`sessionId` the `mfe-sessionid` extension. -/
structure Event (V : Type u) where
  specversion : String
  type : String
  source : String
  id : String
  time : String
  datacontenttype : String
  data : V
  recipient : String
  sessionId : String
deriving DecidableEq, Repr

/-- `EventResult`: `clientId = none` and `data = none` model absent fields. -/
structure EventResult (V : Type u) where
  status : Status
  message : String
  timestamp : Nat
  clientId : Option String
  data : Option V
deriving DecidableEq, Repr

/-- Environment inputs the broker draws nondeterministically at each send:
the generated event id (`Date.now() + random suffix`), the ISO creation time,
and the result timestamp (`Date.now()`). -/
structure Env where
  eventId : String
  eventTime : String
  now : Nat
deriving DecidableEq, Repr

/-- `deepFreeze` only forbids mutation at runtime; values are immutable in
the model, so it is the identity. -/
def deepFreeze {V : Type u} (e : Event V) : Event V := e

-- ==========================================================================
-- Hooks (src/hooks/HookCollection.ts, src/hooks/HooksRegistry.ts)
-- ==========================================================================

/-- A before-send hook: returns a boolean or throws (`Except.error`). -/
def BeforeSendHook (V : Type u) : Type u := Event V → Except Unit Bool

/-- An after-send hook: returns void or throws. -/
def AfterSendHook (V : Type u) : Type u := Event V → EventResult V → Except Unit Unit

/-- An event handler (`HandlerFn`): may return a value (`some v`), return
undefined (`none`), or throw / reject (`Except.error`). -/
def HandlerFn (V : Type u) : Type u := Event V → Except Unit (Option V)

/-- `HookCollection.run` specialised to the before-send pipeline: hooks run
in registration (list) order; the first hook that returns `false` stops the
pipeline with `false`; a throwing hook is caught and skipped; otherwise the
pipeline returns `true`. -/
def hookRunB {V : Type u} : List (BeforeSendHook V) → Event V → Bool
  | [], _ => true
  | h :: hs, e =>
      match h e with
      | Except.ok false => false
      | Except.ok true => hookRunB hs e
      | Except.error _ => hookRunB hs e

/-- `HookCollection.run` specialised to the after-send pipeline: the callback
returns void (never `false`), so every hook is attempted, every exception is
caught, and the run always reports `true`. -/
def hookRunA {V : Type u} : List (AfterSendHook V) → Event V → EventResult V → Bool
  | [], _, _ => true
  | h :: hs, e, r =>
      match h e r with
      | Except.ok _ => hookRunA hs e r
      | Except.error _ => hookRunA hs e r

-- ==========================================================================
-- Broker (src/core/EventBroker.ts, src/core/TabSync.ts)
-- ==========================================================================

/-- Broker state: session id, registered hook lists (in registration order),
the TabSync channel flag (`#channel !== null`), the Subscription Index, and
the observability-only client registry (ids only; instances are opaque). -/
structure Broker (V : Type u) where
  sessionId : String
  beforeSendHooks : List (BeforeSendHook V)
  afterSendHooks : List (AfterSendHook V)
  channelOpen : Bool
  subs : Subscriptions (HandlerFn V)
  registeredClients : List (String × Unit)

/-- Observable effects of one send, in execution order.  `lookup` marks a
Subscription Index consultation, `invoke` a handler invocation with its
envelope, `after` the after-send pipeline running on a result, `relay` a
message posted on the broadcast channel by `TabSync.sync`. -/
inductive Act (V : Type u) where
  | lookup
  | invoke (clientId : String) (event : Event V)
  | after (result : EventResult V)
  | relay (event : Event V)
deriving DecidableEq, Repr

/-- `EventBroker.#createEvent`. -/
def createEvent {V : Type u} (b : Broker V) (env : Env)
    (eventType sender recipient : String) (data : V) : Event V :=
  { specversion := "1.0"
    type := eventType
    source := sender
    id := env.eventId
    time := env.eventTime
    datacontenttype := "application/json"
    data := data
    recipient := recipient
    sessionId := b.sessionId }

/-- `EventBroker.#createResult`.  `...(clientId && { clientId })` keeps the
field only for a truthy (defined, non-empty) client id;
`...(data !== undefined && { data })` keeps a defined payload. -/
def createResult {V : Type u} (env : Env) (status : Status) (message : String)
    (clientId : Option String) (data : Option V) : EventResult V :=
  { status := status
    message := message
    timestamp := env.now
    clientId := clientId.bind (fun c => if c = "" then none else some c)
    data := data }

/-- `EventBroker.#executeHandler`: missing handler → failure; a throwing or
rejecting handler is caught → failure; otherwise success with the handler's
return value. -/
def executeHandler {V : Type u} (event : Event V) (handler : Option (HandlerFn V)) :
    Bool × Option V :=
  match handler with
  | none => (false, none)
  | some f =>
      match f event with
      | Except.ok v => (true, v)
      | Except.error _ => (false, none)

/-- `TabSync.sync`: posts on the channel when it is open; a closed channel
makes the call return immediately. -/
def relayTrace {V : Type u} (b : Broker V) (event : Event V) : List (Act V) :=
  if b.channelOpen then [Act.relay event] else []

/-- `EventBroker.sendTo`, with its observable action trace.  Guard 1: the
before-send pipeline on the frozen envelope; guard 2: recipient subscription;
then handler execution, result construction, after-send pipeline, and tab
relay unless `skipSync`. -/
def sendTo {V : Type u} (b : Broker V) (env : Env)
    (eventType sender recipient : String) (data : V) (skipSync : Bool) :
    EventResult V × List (Act V) :=
  let event := createEvent b env eventType sender recipient data
  if !(hookRunB b.beforeSendHooks (deepFreeze event)) then
    let result := createResult env Status.NACK "Event blocked by beforeSend hook"
      (some recipient) none
    (result, [Act.after result])
  else if !(b.subs.isSubscribed recipient eventType) then
    let result := createResult env Status.NACK
      ("Client '" ++ recipient ++ "' not subscribed to '" ++ eventType ++ "'")
      (some recipient) none
    (result, [Act.lookup, Act.after result])
  else
    let handler := b.subs.getHandler recipient eventType
    let exec := executeHandler event handler
    let result := createResult env (if exec.1 then Status.ACK else Status.NACK)
      (if exec.1 then "Event delivered and handled by '" ++ recipient ++ "'"
       else "Event not handled by '" ++ recipient ++ "'")
      (some recipient) exec.2
    let invokeTrace :=
      match handler with
      | some _ => [Act.invoke recipient event]
      | none => []
    (result, Act.lookup :: invokeTrace ++ [Act.after result] ++
      (if skipSync then [] else relayTrace b event))

/-- `EventBroker.broadcast`, with its observable action trace.  Guard 1: the
before-send pipeline; guard 2: the recipient set excluding the sender; then
fire-and-forget invocation of every recipient's stored handler (outcome
discarded, errors caught per recipient), an ACK counting the recipients, the
after-send pipeline, and tab relay unless `skipSync`. -/
def broadcast {V : Type u} (b : Broker V) (env : Env)
    (eventType sender : String) (data : V) (skipSync : Bool) :
    EventResult V × List (Act V) :=
  let event := createEvent b env eventType sender "*" data
  if !(hookRunB b.beforeSendHooks (deepFreeze event)) then
    let result := createResult env Status.NACK "Broadcast blocked by beforeSend hook"
      none none
    (result, [Act.after result])
  else
    let recipients := b.subs.getSubscribersExcept eventType sender
    if recipients.length = 0 then
      let result := createResult env Status.NACK
        ("No subscribers for event '" ++ eventType ++ "'") none none
      (result, [Act.lookup, Act.after result])
    else
      let invokeTrace := recipients.filterMap (fun clientId =>
        match b.subs.getHandler clientId eventType with
        | some handler =>
            let _ := handler event
            some (Act.invoke clientId event)
        | none => none)
      let result := createResult env Status.ACK
        ("Broadcast sent to " ++ toString recipients.length ++ " subscriber" ++
          (if recipients.length = 1 then "" else "s"))
        none none
      (result, Act.lookup :: invokeTrace ++ [Act.after result] ++
        (if skipSync then [] else relayTrace b event))

/-- The message shape `TabSync.sync` posts: `{ event, sessionId }`. -/
structure SyncMsg (V : Type u) where
  event : Event V
  sessionId : String
deriving DecidableEq, Repr

/-- `TabSync.sync` as the list of messages actually posted. -/
def tabSyncPosts {V : Type u} (b : Broker V) (event : Event V) : List (SyncMsg V) :=
  if b.channelOpen then [{ event := event, sessionId := b.sessionId }] else []

/-- `EventBroker.#handleTabSyncedEvent`: a relayed envelope re-enters
`sendTo` (specific recipient) or `broadcast` (wildcard) with the skip-relay
flag set; the returned result is discarded, so only the trace is observable. -/
def handleTabSyncedEvent {V : Type u} (b : Broker V) (env : Env) (event : Event V) :
    List (Act V) :=
  if event.recipient ≠ "*" then
    (sendTo b env event.type event.source event.recipient event.data true).2
  else
    (broadcast b env event.type event.source event.data true).2

/-- `TabSync.#handleMessage`: messages carrying the local session id are
discarded; all others are handed to the broker callback. -/
def handleMessage {V : Type u} (b : Broker V) (env : Env) (msg : SyncMsg V) :
    List (Act V) :=
  if msg.sessionId = b.sessionId then [] else handleTabSyncedEvent b env msg.event

/-- `EventBroker.destroy`: close the TabSync channel, clear the Subscription
Index, clear the client registry. -/
def destroy {V : Type u} (b : Broker V) : Broker V :=
  { b with channelOpen := false
           subs := b.subs.clear
           registeredClients := [] }

-- ==========================================================================
-- Concrete fixtures for witnesses
-- ==========================================================================

/-- Handler that completes returning the value 7. -/
def hOk : HandlerFn Nat := fun _ => Except.ok (some 7)

/-- Handler that throws / returns a rejecting promise. -/
def hBad : HandlerFn Nat := fun _ => Except.error ()

/-- Before-send hook that blocks every event. -/
def hookBlockNat : BeforeSendHook Nat := fun _ => Except.ok false

/-- Before-send hook that passes every event. -/
def hookPassNat : BeforeSendHook Nat := fun _ => Except.ok true

/-- Broker with clients "B" (succeeding handler) and "C" (throwing handler)
subscribed to event type "evt"; no hooks. -/
def b0 : Broker Nat :=
  { sessionId := "s1"
    beforeSendHooks := []
    afterSendHooks := []
    channelOpen := true
    subs := ((Subscriptions.empty (HandlerFn Nat)).subscribe "B" "evt" hOk).subscribe
      "C" "evt" hBad
    registeredClients := [] }

/-- The same broker with one blocking before-send hook. -/
def b1 : Broker Nat := { b0 with beforeSendHooks := [hookBlockNat] }

def env0 : Env := { eventId := "id1", eventTime := "t1", now := 5 }

def msgSelf : SyncMsg Nat :=
  { event := createEvent b0 env0 "evt" "A" "B" 3, sessionId := "s1" }

def msgOther : SyncMsg Nat :=
  { event := createEvent b0 env0 "evt" "A" "B" 3, sessionId := "s2" }

-- ==========================================================================
-- Theorems
-- ==========================================================================
-- ==========================================================================
-- Basic lemmas about the map/set model
-- ==========================================================================

theorem mapGet_mapSet_self {α : Type u} (m : List (String × α)) (k : String) (v : α) :
    mapGet (mapSet m k v) k = some v := by
  induction m with
  | nil => simp [mapGet, mapSet]
  | cons p rest ih =>
      by_cases h : p.1 = k
      · simp [mapSet, mapGet, h]
      · simp [mapSet, mapGet, h, ih]

theorem mapGet_mapSet_ne {α : Type u} (m : List (String × α)) {k k' : String} (v : α)
    (h : k' ≠ k) : mapGet (mapSet m k' v) k = mapGet m k := by
  induction m with
  | nil => simp [mapGet, mapSet, h]
  | cons p rest ih =>
      obtain ⟨a, b⟩ := p
      by_cases hp : a = k'
      · subst hp
        simp [mapSet, mapGet, h, Ne.symm h]
      · simp [mapSet, mapGet, hp, ih]

theorem mapGet_mapDelete_self {α : Type u} (m : List (String × α)) (k : String) :
    mapGet (mapDelete m k) k = none := by
  induction m with
  | nil => simp [mapGet, mapDelete]
  | cons p rest ih =>
      obtain ⟨a, b⟩ := p
      by_cases h : a = k
      · simpa [mapDelete, List.filter_cons, h] using ih
      · simpa [mapDelete, List.filter_cons, mapGet, h] using ih

theorem mapGet_mapDelete_ne {α : Type u} (m : List (String × α)) {k k' : String}
    (h : k' ≠ k) : mapGet (mapDelete m k') k = mapGet m k := by
  induction m with
  | nil => simp [mapGet, mapDelete]
  | cons p rest ih =>
      obtain ⟨a, b⟩ := p
      by_cases hp : a = k'
      · subst hp
        simpa [mapDelete, List.filter_cons, mapGet, h] using ih
      · simp only [mapDelete, ne_eq, decide_not] at ih
        simp [mapDelete, List.filter_cons, mapGet, hp, ih]

theorem mapGet_mapDelete_none {α : Type u} (m : List (String × α)) (k k' : String)
    (h : mapGet m k = none) : mapGet (mapDelete m k') k = none := by
  induction m with
  | nil => simp [mapGet, mapDelete]
  | cons p rest ih =>
      obtain ⟨a, b⟩ := p
      by_cases hk : a = k
      · simp [mapGet, hk] at h
      · have h' : mapGet rest k = none := by simpa [mapGet, hk] using h
        by_cases hp : a = k'
        · simpa [mapDelete, List.filter_cons, hp] using ih h'
        · simpa [mapDelete, List.filter_cons, mapGet, hp, hk] using ih h'

theorem mapKeys_mapSet_of_present {α : Type u} (m : List (String × α)) (k : String)
    (v w : α) (h : mapGet m k = some w) : mapKeys (mapSet m k v) = mapKeys m := by
  induction m with
  | nil => simp [mapGet] at h
  | cons p rest ih =>
      by_cases hp : p.1 = k
      · simp [mapSet, mapKeys, hp]
      · simp [mapGet, hp] at h
        simpa [mapSet, mapKeys, hp] using ih h

theorem mem_mapKeys_iff {α : Type u} (m : List (String × α)) (k : String) :
    k ∈ mapKeys m ↔ (mapGet m k).isSome := by
  induction m with
  | nil => simp [mapKeys, mapGet]
  | cons p rest ih =>
      by_cases hp : p.1 = k
      · simp [mapKeys, mapGet, hp]
      · simpa [mapKeys, mapGet, hp, Ne.symm hp] using ih

theorem not_mem_mapKeys_mapDelete {α : Type u} (m : List (String × α)) (k : String) :
    k ∉ mapKeys (mapDelete m k) := by
  rw [mem_mapKeys_iff, mapGet_mapDelete_self]
  simp

theorem setHas_iff_mem (l : List String) (x : String) :
    setHas l x = true ↔ x ∈ l := by
  induction l with
  | nil => simp [setHas]
  | cons a t ih =>
      by_cases h : a = x
      · simp [setHas, h]
      · simpa [setHas, h, Ne.symm h] using ih

theorem setHas_append (l₁ l₂ : List String) (y : String) :
    setHas (l₁ ++ l₂) y = (setHas l₁ y || setHas l₂ y) := by
  induction l₁ with
  | nil => simp [setHas]
  | cons a t ih =>
      by_cases ha : a = y
      · simp [setHas, ha]
      · simp [setHas, ha, ih]

theorem setHas_setAdd_self (l : List String) (x : String) :
    setHas (setAdd l x) x = true := by
  unfold setAdd
  by_cases h : setHas l x
  · simp [h]
  · simp [h, setHas_append, setHas]

theorem setHas_setAdd_ne (l : List String) {x y : String} (h : y ≠ x) :
    setHas (setAdd l x) y = setHas l y := by
  unfold setAdd
  by_cases hl : setHas l x
  · simp [hl]
  · simp [hl, setHas_append, setHas, Ne.symm h]

theorem setHas_setDelete_self (l : List String) (x : String) :
    setHas (setDelete l x) x = false := by
  induction l with
  | nil => simp [setHas, setDelete]
  | cons a t ih =>
      by_cases h : a = x
      · simpa [setDelete, List.filter_cons, h] using ih
      · simpa [setDelete, List.filter_cons, setHas, h] using ih

theorem setHas_setDelete_ne (l : List String) {x y : String} (h : y ≠ x) :
    setHas (setDelete l x) y = setHas l y := by
  induction l with
  | nil => simp [setHas, setDelete]
  | cons a t ih =>
      by_cases ha : a = x
      · subst ha
        simpa [setDelete, List.filter_cons, setHas, Ne.symm h] using ih
      · by_cases hy : a = y
        · subst hy
          simp [setDelete, List.filter_cons, setHas, ha]
        · simp only [setDelete, ne_eq, decide_not] at ih
          simp [setDelete, List.filter_cons, setHas, ha, hy, ih]

theorem setHas_all_false_nil (l : List String)
    (h : ∀ x, setHas l x = false) : l = [] := by
  cases l with
  | nil => rfl
  | cons a t =>
      have := h a
      simp [setHas] at this

-- ==========================================================================
-- Point effects of subscribe / unsubscribe
-- ==========================================================================

theorem Subscriptions.isSubscribed_subscribe_self {H : Type u} (s : Subscriptions H)
    (c e : String) (h : H) :
    (s.subscribe c e h).isSubscribed c e = true := by
  unfold Subscriptions.subscribe Subscriptions.isSubscribed
  cases hc : mapGet s.clientSubscriptions c <;>
    simp [hc, mapGet_mapSet_self, setHas_setAdd_self]

theorem Subscriptions.getHandler_subscribe_self {H : Type u} (s : Subscriptions H)
    (c e : String) (h : H) :
    (s.subscribe c e h).getHandler c e = some h := by
  unfold Subscriptions.subscribe Subscriptions.getHandler
  simp [mapGet_mapSet_self]

theorem Subscriptions.isSubscribed_unsubscribe_self {H : Type u} (s : Subscriptions H)
    (c e : String) :
    (s.unsubscribe c e).isSubscribed c e = false := by
  unfold Subscriptions.unsubscribe Subscriptions.isSubscribed
  cases hc : mapGet s.clientSubscriptions c <;>
    simp [hc, mapGet_mapSet_self, setHas_setDelete_self]

theorem Subscriptions.getHandler_unsubscribe_self {H : Type u} (s : Subscriptions H)
    (c e : String) :
    (s.unsubscribe c e).getHandler c e = none := by
  unfold Subscriptions.unsubscribe Subscriptions.getHandler
  simp [mapGet_mapDelete_self]

-- ==========================================================================
-- Frame lemmas: operations on another pair with a distinct composite key
-- ==========================================================================

theorem handlerKey_congr {c' e' c e : String} (hc : c' = c) (he : e' = e) :
    handlerKey c' e' = handlerKey c e := by rw [hc, he]

theorem Subscriptions.isSubscribed_subscribe_other {H : Type u} (s : Subscriptions H)
    {c' e' c e : String} (hne : ¬(c' = c ∧ e' = e)) (h : H) :
    (s.subscribe c' e' h).isSubscribed c e = s.isSubscribed c e := by
  unfold Subscriptions.subscribe Subscriptions.isSubscribed
  by_cases hcc : c' = c
  · subst hcc
    have hee : e' ≠ e := fun he => hne ⟨rfl, he⟩
    cases hc : mapGet s.clientSubscriptions c' <;>
      simp [hc, mapGet_mapSet_self, setHas_setAdd_ne _ (Ne.symm hee), setHas, hee]
  · cases hc : mapGet s.clientSubscriptions c' <;>
      simp [hc, mapGet_mapSet_ne _ _ hcc]

theorem Subscriptions.getHandler_subscribe_other {H : Type u} (s : Subscriptions H)
    {c' e' c e : String} (hk : handlerKey c' e' ≠ handlerKey c e) (h : H) :
    (s.subscribe c' e' h).getHandler c e = s.getHandler c e := by
  unfold Subscriptions.subscribe Subscriptions.getHandler
  simp [mapGet_mapSet_ne _ _ hk]

theorem Subscriptions.isSubscribed_unsubscribe_other {H : Type u} (s : Subscriptions H)
    {c' e' c e : String} (hne : ¬(c' = c ∧ e' = e)) :
    (s.unsubscribe c' e').isSubscribed c e = s.isSubscribed c e := by
  unfold Subscriptions.unsubscribe Subscriptions.isSubscribed
  by_cases hcc : c' = c
  · subst hcc
    have hee : e' ≠ e := fun he => hne ⟨rfl, he⟩
    cases hc : mapGet s.clientSubscriptions c' <;>
      simp [hc, mapGet_mapSet_self, setHas_setDelete_ne _ (Ne.symm hee), hee]
  · cases hc : mapGet s.clientSubscriptions c' <;>
      simp [hc, mapGet_mapSet_ne _ _ hcc]

theorem Subscriptions.getHandler_unsubscribe_other {H : Type u} (s : Subscriptions H)
    {c' e' c e : String} (hk : handlerKey c' e' ≠ handlerKey c e) :
    (s.unsubscribe c' e').getHandler c e = s.getHandler c e := by
  unfold Subscriptions.unsubscribe Subscriptions.getHandler
  simp [mapGet_mapDelete_ne _ hk]

theorem SubOp.apply_preserves {H : Type u} (s : Subscriptions H) (op : SubOp H)
    {c e : String} (hk : op.key ≠ handlerKey c e) :
    ((SubOp.apply s op).isSubscribed c e = s.isSubscribed c e ∧
      (SubOp.apply s op).getHandler c e = s.getHandler c e) := by
  cases op with
  | sub c' e' h =>
      have hkk : handlerKey c' e' ≠ handlerKey c e := hk
      have hne : ¬(c' = c ∧ e' = e) := fun hp => hkk (handlerKey_congr hp.1 hp.2)
      exact ⟨Subscriptions.isSubscribed_subscribe_other s hne h,
        Subscriptions.getHandler_subscribe_other s hkk h⟩
  | unsub c' e' =>
      have hkk : handlerKey c' e' ≠ handlerKey c e := hk
      have hne : ¬(c' = c ∧ e' = e) := fun hp => hkk (handlerKey_congr hp.1 hp.2)
      exact ⟨Subscriptions.isSubscribed_unsubscribe_other s hne,
        Subscriptions.getHandler_unsubscribe_other s hkk⟩

theorem runOps_preserves {H : Type u} (ops : List (SubOp H)) (s : Subscriptions H)
    {c e : String} (hk : ∀ op ∈ ops, SubOp.key op ≠ handlerKey c e) :
    ((runOps s ops).isSubscribed c e = s.isSubscribed c e ∧
      (runOps s ops).getHandler c e = s.getHandler c e) := by
  induction ops generalizing s with
  | nil => exact ⟨rfl, rfl⟩
  | cons op rest ih =>
      have h1 := SubOp.apply_preserves s op (hk op (by simp))
      have h2 := ih (SubOp.apply s op) (fun o ho => hk o (by simp [ho]))
      exact ⟨h2.1.trans h1.1, h2.2.trans h1.2⟩

-- ==========================================================================
-- unregisterClient: supporting lemmas (claim C5)
-- ==========================================================================

theorem Subscriptions.removeClientFromEvent_clientSubs {H : Type u} (c : String)
    (st : Subscriptions H) (e : String) :
    (Subscriptions.removeClientFromEvent c st e).clientSubscriptions =
      st.clientSubscriptions := rfl

theorem foldRemove_clientSubs {H : Type u} (c : String) (es : List String)
    (st : Subscriptions H) :
    (es.foldl (Subscriptions.removeClientFromEvent c) st).clientSubscriptions =
      st.clientSubscriptions := by
  induction es generalizing st with
  | nil => rfl
  | cons e t ih =>
      rw [List.foldl_cons, ih, Subscriptions.removeClientFromEvent_clientSubs]

theorem Subscriptions.removeClientFromEvent_handlers {H : Type u} (c : String)
    (st : Subscriptions H) (e : String) :
    (Subscriptions.removeClientFromEvent c st e).handlers =
      mapDelete st.handlers (handlerKey c e) := rfl

theorem foldRemove_handlers {H : Type u} (c : String) (es : List String)
    (st : Subscriptions H) :
    (es.foldl (Subscriptions.removeClientFromEvent c) st).handlers =
      es.foldl (fun hm e => mapDelete hm (handlerKey c e)) st.handlers := by
  induction es generalizing st with
  | nil => rfl
  | cons e t ih =>
      rw [List.foldl_cons, List.foldl_cons, ih]
      rfl

theorem mapGet_foldDelete_none {α : Type u} (c : String) (es : List String)
    (hm : List (String × α)) (k : String) (h : mapGet hm k = none) :
    mapGet (es.foldl (fun m x => mapDelete m (handlerKey c x)) hm) k = none := by
  induction es generalizing hm with
  | nil => exact h
  | cons a t ih =>
      rw [List.foldl_cons]
      exact ih _ (mapGet_mapDelete_none _ _ _ h)

theorem mapGet_foldDelete_of_mem {α : Type u} (c : String) (es : List String)
    (hm : List (String × α)) {e : String} (he : e ∈ es) :
    mapGet (es.foldl (fun m x => mapDelete m (handlerKey c x)) hm) (handlerKey c e) = none := by
  induction es generalizing hm with
  | nil => cases he
  | cons a t ih =>
      rw [List.foldl_cons]
      rcases List.mem_cons.mp he with h | h
      · subst h
        exact mapGet_foldDelete_none _ _ _ _ (mapGet_mapDelete_self _ _)
      · exact ih _ h

theorem mapGet_foldDelete_of_ne {α : Type u} (c : String) (es : List String)
    (hm : List (String × α)) (k : String) (h : ∀ e ∈ es, k ≠ handlerKey c e) :
    mapGet (es.foldl (fun m x => mapDelete m (handlerKey c x)) hm) k = mapGet hm k := by
  induction es generalizing hm with
  | nil => rfl
  | cons a t ih =>
      rw [List.foldl_cons]
      rw [ih _ (fun e heq => h e (by simp [heq]))]
      exact mapGet_mapDelete_ne _ (Ne.symm (h a (by simp)))

-- ==========================================================================
-- unsubscribe-all supporting lemma (claim C9)
-- ==========================================================================

theorem unsubscribeAll_entry {H : Type u} (l : List String) (s : Subscriptions H)
    (c : String) (acc : List String)
    (hacc : mapGet s.clientSubscriptions c = some acc)
    (hsub : ∀ x, setHas acc x = true → x ∈ l) :
    mapGet ((l.foldl (fun st e => Subscriptions.unsubscribe st c e) s)).clientSubscriptions c
      = some [] := by
  induction l generalizing s acc with
  | nil =>
      have hnil : acc = [] := by
        apply setHas_all_false_nil
        intro x
        by_contra hx
        have := hsub x (by
          cases hxx : setHas acc x
          · exact absurd hxx hx
          · rfl)
        simp at this
      rw [List.foldl_nil, hacc, hnil]
  | cons e t ih =>
      rw [List.foldl_cons]
      refine ih _ (setDelete acc e) ?_ ?_
      · show mapGet (Subscriptions.unsubscribe s c e).clientSubscriptions c = _
        unfold Subscriptions.unsubscribe
        simp [hacc, mapGet_mapSet_self]
      · intro x hx
        by_cases hxe : x = e
        · subst hxe
          rw [setHas_setDelete_self] at hx
          cases hx
        · rw [setHas_setDelete_ne _ hxe] at hx
          have := hsub x hx
          rcases List.mem_cons.mp this with h | h
          · exact absurd h hxe
          · exact h

-- ==========================================================================
-- Claim C1
-- ==========================================================================

/-- Claim C1, corrected.  After `subscribe(c, e, h)`, `isSubscribed(c, e)` is
true and `getHandler(c, e)` is exactly `h`; after `unsubscribe(c, e)` they are
false / undefined — and this is stable under interleaved subscribe/unsubscribe
calls for other pairs PROVIDED each interleaved call's composite key
`clientId:eventType` differs from `c:e`.  (The unrestricted claim is false:
see the counterexample, where the keys of two distinct pairs collide.) -/
theorem claim_C1 {H : Type u} (s : Subscriptions H) (c e : String) (h : H)
    (ops : List (SubOp H))
    (hops : ∀ op ∈ ops, SubOp.key op ≠ handlerKey c e) :
    (runOps (s.subscribe c e h) ops).isSubscribed c e = true ∧
    (runOps (s.subscribe c e h) ops).getHandler c e = some h ∧
    (runOps (s.unsubscribe c e) ops).isSubscribed c e = false ∧
    (runOps (s.unsubscribe c e) ops).getHandler c e = none := by
  have hsub := runOps_preserves ops (s.subscribe c e h) hops
  have hunsub := runOps_preserves ops (s.unsubscribe c e) hops
  exact ⟨hsub.1.trans (s.isSubscribed_subscribe_self c e h),
    hsub.2.trans (s.getHandler_subscribe_self c e h),
    hunsub.1.trans (s.isSubscribed_unsubscribe_self c e),
    hunsub.2.trans (s.getHandler_unsubscribe_self c e)⟩

/-- Claim C1 as stated is false: subscribing the distinct pair ("a", "b:c")
after ("a:b", "c") silently overwrites the handler stored for ("a:b", "c"),
because both pairs share the composite key "a:b:c". -/
theorem claim_C1_counterexample :
    ((((Subscriptions.empty Bool).subscribe "a:b" "c" true).subscribe
        "a" "b:c" false).isSubscribed "a:b" "c" = true) ∧
    ¬((((Subscriptions.empty Bool).subscribe "a:b" "c" true).subscribe
        "a" "b:c" false).getHandler "a:b" "c" = some true) := by
  constructor
  · rfl
  · intro hcontra
    simp [Subscriptions.empty, Subscriptions.subscribe, Subscriptions.getHandler,
      handlerKey, mapSet, mapGet] at hcontra

theorem claim_C1_witness :
    (runOps ((Subscriptions.empty Bool).subscribe "a" "b" true)
        [SubOp.sub "x" "y" false]).getHandler "a" "b" = some true := by
  have h := claim_C1 (Subscriptions.empty Bool) "a" "b" true [SubOp.sub "x" "y" false]
    (by
      intro op hop
      rw [List.mem_singleton] at hop
      subst hop
      decide)
  exact h.2.1

-- ==========================================================================
-- Claim C5
-- ==========================================================================

/-- Claim C5, corrected.  `unregisterClient(c)`:
1. always makes `isSubscribed(c, e)` false for every event type `e`;
2. makes `getHandler(c, e)` undefined for every `e` for which `c` holds no
   orphan handler (a handler stored under `c:e` while `c` is not subscribed
   to `e` can only arise from a composite-key collision);
3. never changes `isSubscribed(c', e')` for any other client `c'`;
4. leaves `getHandler(c', e')` of another client unchanged provided the key
   `c':e'` collides with no key `c:e1` of an event `e1` in `c`'s subscription
   set (automatic when client ids contain no colon).
The unrestricted claim is false: see the counterexample, where
`unregisterClient("a:b")` deletes the handler of the distinct pair
("a", "b:c") through the shared composite key "a:b:c". -/
theorem claim_C5 {H : Type u} (s : Subscriptions H) (c : String) :
    (∀ e, (s.unregisterClient c).isSubscribed c e = false) ∧
    (∀ e, ((s.getHandler c e).isSome → s.isSubscribed c e = true) →
      (s.unregisterClient c).getHandler c e = none) ∧
    (∀ c' e', c' ≠ c →
      (s.unregisterClient c).isSubscribed c' e' = s.isSubscribed c' e') ∧
    (∀ c' e', c' ≠ c →
      (∀ e1 ∈ (mapGet s.clientSubscriptions c).getD [],
        handlerKey c' e' ≠ handlerKey c e1) →
      (s.unregisterClient c).getHandler c' e' = s.getHandler c' e') := by
  refine ⟨?_, ?_, ?_, ?_⟩
  · intro e
    unfold Subscriptions.unregisterClient Subscriptions.isSubscribed
    cases hc : mapGet s.clientSubscriptions c <;>
      simp [hc, mapGet_mapDelete_self]
  · intro e horph
    unfold Subscriptions.unregisterClient Subscriptions.getHandler
    cases hc : mapGet s.clientSubscriptions c with
    | none =>
        simp only [hc]
        cases hh : mapGet s.handlers (handlerKey c e) with
        | none => rfl
        | some v =>
            have : s.isSubscribed c e = true := by
              apply horph
              unfold Subscriptions.getHandler
              simp [hh]
            unfold Subscriptions.isSubscribed at this
            rw [hc] at this
            cases this
    | some es =>
        simp only [hc]
        rw [foldRemove_handlers]
        by_cases he : setHas es e = true
        · exact mapGet_foldDelete_of_mem c es s.handlers ((setHas_iff_mem es e).mp he)
        · have hf : setHas es e = false := by
            cases hse : setHas es e
            · rfl
            · exact absurd hse he
          have hsubf : s.isSubscribed c e = false := by
            simp [Subscriptions.isSubscribed, hc, hf]
          have hnone : mapGet s.handlers (handlerKey c e) = none := by
            cases hh : mapGet s.handlers (handlerKey c e) with
            | none => rfl
            | some v =>
                have : s.isSubscribed c e = true := by
                  apply horph
                  unfold Subscriptions.getHandler
                  simp [hh]
                rw [hsubf] at this
                cases this
          exact mapGet_foldDelete_none c es s.handlers _ hnone
  · intro c' e' hne
    unfold Subscriptions.unregisterClient Subscriptions.isSubscribed
    cases hc : mapGet s.clientSubscriptions c with
    | none =>
        simp only [hc]
        rw [mapGet_mapDelete_ne _ (Ne.symm hne)]
    | some es =>
        simp only [hc]
        rw [mapGet_mapDelete_ne _ (Ne.symm hne), foldRemove_clientSubs]
  · intro c' e' hne hkeys
    unfold Subscriptions.unregisterClient Subscriptions.getHandler
    cases hc : mapGet s.clientSubscriptions c with
    | none => simp only [hc]
    | some es =>
        simp only [hc]
        rw [foldRemove_handlers]
        apply mapGet_foldDelete_of_ne
        intro e1 he1
        apply hkeys
        rw [hc]
        exact he1

/-- Claim C5 as stated is false: unregistering client "a:b" changes the value
of `getHandler("a", "b:c")` for the distinct client "a" (a composite-key
collision on "a:b:c"). -/
theorem claim_C5_counterexample :
    ¬(((((Subscriptions.empty Bool).subscribe "a:b" "c" true).subscribe
          "a" "b:c" false).unregisterClient "a:b").getHandler "a" "b:c" =
      ((((Subscriptions.empty Bool).subscribe "a:b" "c" true).subscribe
          "a" "b:c" false)).getHandler "a" "b:c") := by
  intro hcontra
  simp [Subscriptions.empty, Subscriptions.subscribe, Subscriptions.unregisterClient,
    Subscriptions.removeClientFromEvent, Subscriptions.getHandler, handlerKey,
    mapSet, mapGet, mapDelete, setAdd, setHas, setDelete, List.filter] at hcontra

theorem claim_C5_witness :
    ((((Subscriptions.empty Bool).subscribe "a" "x" true).subscribe
        "b" "x" false).unregisterClient "a").getHandler "b" "x" =
      (((Subscriptions.empty Bool).subscribe "a" "x" true).subscribe
        "b" "x" false).getHandler "b" "x" := by
  have h := claim_C5 (((Subscriptions.empty Bool).subscribe "a" "x" true).subscribe
    "b" "x" false) "a"
  exact h.2.2.2 "b" "x" (by decide) (by decide)

-- ==========================================================================
-- Claim C9
-- ==========================================================================

/-- Claim C9, confirmed.  `unsubscribe` never removes a client's own entry
from the client index (so the client keeps appearing in
`getAllSubscribedClients`); after a subscribed client unsubscribes from every
event type in its subscription set, it is still listed and maps to the empty
list in `getAllSubscriptions`; only `unregisterClient` or `clear` removes the
entry. -/
theorem claim_C9 {H : Type u} (s : Subscriptions H) (c : String) (es : List String)
    (hc : mapGet s.clientSubscriptions c = some es) :
    (∀ c0 e0, (Subscriptions.unsubscribe s c0 e0).getAllSubscribedClients =
      s.getAllSubscribedClients) ∧
    (c ∈ (es.foldl (fun st e => Subscriptions.unsubscribe st c e) s).getAllSubscribedClients ∧
      mapGet ((es.foldl (fun st e => Subscriptions.unsubscribe st c e) s).getAllSubscriptions) c
        = some []) ∧
    c ∉ (s.unregisterClient c).getAllSubscribedClients ∧
    (s.clear).getAllSubscribedClients = [] := by
  refine ⟨?_, ?_, ?_, rfl⟩
  · intro c0 e0
    unfold Subscriptions.unsubscribe Subscriptions.getAllSubscribedClients
    cases hc0 : mapGet s.clientSubscriptions c0 with
    | none => simp only [hc0]
    | some es0 =>
        simp only [hc0]
        exact mapKeys_mapSet_of_present _ _ _ _ hc0
  · have hfold := unsubscribeAll_entry es s c es hc
      (fun x hx => (setHas_iff_mem es x).mp hx)
    constructor
    · unfold Subscriptions.getAllSubscribedClients
      rw [mem_mapKeys_iff, hfold]
      rfl
    · exact hfold
  · unfold Subscriptions.unregisterClient Subscriptions.getAllSubscribedClients
    cases hcc : mapGet s.clientSubscriptions c with
    | none => exact not_mem_mapKeys_mapDelete _ _
    | some es0 => exact not_mem_mapKeys_mapDelete _ _

theorem claim_C9_witness :
    "a" ∈ ((["e1", "e2"].foldl (fun st e => Subscriptions.unsubscribe st "a" e)
        (((Subscriptions.empty Bool).subscribe "a" "e1" true).subscribe
          "a" "e2" false))).getAllSubscribedClients ∧
    mapGet (((["e1", "e2"].foldl (fun st e => Subscriptions.unsubscribe st "a" e)
        (((Subscriptions.empty Bool).subscribe "a" "e1" true).subscribe
          "a" "e2" false))).getAllSubscriptions) "a" = some [] := by
  have h := claim_C9 (((Subscriptions.empty Bool).subscribe "a" "e1" true).subscribe
    "a" "e2" false) "a" ["e1", "e2"] (by decide)
  exact h.2.1

-- ==========================================================================
-- Broker-level helper lemmas
-- ==========================================================================

theorem not_mem_getSubscribersExcept_self {H : Type u} (s : Subscriptions H)
    (et ex : String) : ex ∉ s.getSubscribersExcept et ex := by
  unfold Subscriptions.getSubscribersExcept
  intro h
  simp [List.mem_filter] at h

theorem mem_getSubscribersExcept_ne {H : Type u} {s : Subscriptions H}
    {et ex c : String} (h : c ∈ s.getSubscribersExcept et ex) : c ≠ ex := by
  unfold Subscriptions.getSubscribersExcept at h
  have := (List.mem_filter.mp h).2
  simpa using this

theorem hookRunA_total {V : Type u} (hooks : List (AfterSendHook V)) (e : Event V)
    (r : EventResult V) : hookRunA hooks e r = true := by
  induction hooks with
  | nil => rfl
  | cons h t ih =>
      cases hh : h e r <;> simp [hookRunA, hh, ih]

theorem hookRunB_first_false {V : Type u} (hs1 : List (BeforeSendHook V))
    (hook : BeforeSendHook V) (hs2 : List (BeforeSendHook V)) (e : Event V)
    (hprev : ∀ h' ∈ hs1, h' e ≠ Except.ok false) (hfalse : hook e = Except.ok false) :
    hookRunB (hs1 ++ hook :: hs2) e = false := by
  induction hs1 with
  | nil => simp [hookRunB, hfalse]
  | cons h1 t ih =>
      cases hh : h1 e with
      | ok bv =>
          cases bv with
          | false => exact absurd hh (hprev h1 (by simp))
          | true =>
              simp only [List.cons_append, hookRunB, hh]
              exact ih (fun h' hm => hprev h' (by simp [hm]))
      | error err =>
          simp only [List.cons_append, hookRunB, hh]
          exact ih (fun h' hm => hprev h' (by simp [hm]))

theorem hookRunB_false_split {V : Type u} (hs : List (BeforeSendHook V)) (e : Event V)
    (hmain : hookRunB hs e = false) :
    ∃ hs1 hook hs2, hs = hs1 ++ hook :: hs2 ∧ hook e = Except.ok false ∧
      ∀ h' ∈ hs1, h' e ≠ Except.ok false := by
  induction hs with
  | nil => cases hmain
  | cons h t ih =>
      cases hh : h e with
      | ok bv =>
          cases bv with
          | false => exact ⟨[], h, t, rfl, hh, by simp⟩
          | true =>
              have ht : hookRunB t e = false := by
                simpa [hookRunB, hh] using hmain
              obtain ⟨hs1, hook, hs2, heq, hf, hp⟩ := ih ht
              refine ⟨h :: hs1, hook, hs2, by simp [heq], hf, ?_⟩
              intro h' hm
              rcases List.mem_cons.mp hm with hl | hl
              · subst hl
                rw [hh]
                simp
              · exact hp h' hl
      | error err =>
          have ht : hookRunB t e = false := by
            simpa [hookRunB, hh] using hmain
          obtain ⟨hs1, hook, hs2, heq, hf, hp⟩ := ih ht
          refine ⟨h :: hs1, hook, hs2, by simp [heq], hf, ?_⟩
          intro h' hm
          rcases List.mem_cons.mp hm with hl | hl
          · subst hl
            rw [hh]
            simp
          · exact hp h' hl

-- ==========================================================================
-- Claim C2
-- ==========================================================================

/-- Claim C2, confirmed.  With arbitrary registered hooks and subscribed
handlers — including ones that throw (`Except.error`) — `sendTo` and
`broadcast` are total functions into a `DeliveryResult` whose status is ACK
or NACK: the embedding catches every hook/handler error exactly where the
source does (`HookCollection.run`, `#executeHandler`, broadcast's
per-recipient catch), so no error value escapes either entry point; the
after-send pipeline likewise absorbs every hook error. -/
theorem claim_C2 {V : Type u} (b : Broker V) (env : Env) (et s r : String)
    (d : V) (skip : Bool) :
    ((sendTo b env et s r d skip).1.status = Status.ACK ∨
      (sendTo b env et s r d skip).1.status = Status.NACK) ∧
    ((broadcast b env et s d skip).1.status = Status.ACK ∨
      (broadcast b env et s d skip).1.status = Status.NACK) ∧
    (∀ (hooks : List (AfterSendHook V)) (e : Event V) (res : EventResult V),
      hookRunA hooks e res = true) := by
  refine ⟨?_, ?_, fun hooks e res => hookRunA_total hooks e res⟩
  · cases (sendTo b env et s r d skip).1.status
    · exact Or.inl rfl
    · exact Or.inr rfl
  · cases (broadcast b env et s d skip).1.status
    · exact Or.inl rfl
    · exact Or.inr rfl

-- ==========================================================================
-- Claim C7
-- ==========================================================================

/-- Claim C7, confirmed.  When the recipient is not subscribed to the event
type (and the before-send pipeline does not block, which is the path the
claim describes), `sendTo` resolves to NACK with the exact message
"Client '<recipient>' not subscribed to '<eventType>'", invokes no handler,
and behaves identically whatever the contents of the client registry
(registration is irrelevant: the registry is never consulted). -/
theorem claim_C7 {V : Type u} (b : Broker V) (env : Env) (et s r : String)
    (d : V) (skip : Bool)
    (hpass : hookRunB b.beforeSendHooks (createEvent b env et s r d) = true)
    (hns : b.subs.isSubscribed r et = false) :
    sendTo b env et s r d skip =
      (createResult env Status.NACK
        ("Client '" ++ r ++ "' not subscribed to '" ++ et ++ "'") (some r) none,
       [Act.lookup, Act.after (createResult env Status.NACK
        ("Client '" ++ r ++ "' not subscribed to '" ++ et ++ "'") (some r) none)]) ∧
    (∀ c' e', Act.invoke c' e' ∉ (sendTo b env et s r d skip).2) ∧
    (∀ reg', sendTo { b with registeredClients := reg' } env et s r d skip =
      sendTo b env et s r d skip) := by
  have htr : sendTo b env et s r d skip =
      (createResult env Status.NACK
        ("Client '" ++ r ++ "' not subscribed to '" ++ et ++ "'") (some r) none,
       [Act.lookup, Act.after (createResult env Status.NACK
        ("Client '" ++ r ++ "' not subscribed to '" ++ et ++ "'") (some r) none)]) := by
    simp [sendTo, deepFreeze, hpass, hns]
  refine ⟨htr, ?_, fun reg' => rfl⟩
  intro c' e'
  rw [htr]
  simp

-- ==========================================================================
-- Claim C4
-- ==========================================================================

/-- Claim C4, confirmed.  For `sendTo` with a subscribed recipient, no
before-send block, and stored handler `f`: if `f` completes with value `v`
the result is ACK with message "Event delivered and handled by '<recipient>'"
and `v` as `result.data`; if `f` throws or rejects the result is NACK with
message "Event not handled by '<recipient>'". -/
theorem claim_C4 {V : Type u} (b : Broker V) (env : Env) (et s r : String)
    (d : V) (skip : Bool) (f : HandlerFn V)
    (hpass : hookRunB b.beforeSendHooks (createEvent b env et s r d) = true)
    (hsub : b.subs.isSubscribed r et = true)
    (hh : b.subs.getHandler r et = some f) :
    (∀ v, f (createEvent b env et s r d) = Except.ok v →
      (sendTo b env et s r d skip).1.status = Status.ACK ∧
      (sendTo b env et s r d skip).1.message =
        "Event delivered and handled by '" ++ r ++ "'" ∧
      (sendTo b env et s r d skip).1.data = v) ∧
    (f (createEvent b env et s r d) = Except.error () →
      (sendTo b env et s r d skip).1.status = Status.NACK ∧
      (sendTo b env et s r d skip).1.message =
        "Event not handled by '" ++ r ++ "'" ∧
      (sendTo b env et s r d skip).1.data = none) := by
  constructor
  · intro v hv
    simp [sendTo, deepFreeze, hpass, hsub, hh, executeHandler, hv, createResult]
  · intro hv
    simp [sendTo, deepFreeze, hpass, hsub, hh, executeHandler, hv, createResult]

-- ==========================================================================
-- Claim C10
-- ==========================================================================

/-- Claim C10, confirmed.  A second (or any later) `destroy()` is a harmless
no-op: `destroy` is idempotent on the broker state (TabSync skips the closed
channel, clearing the empty index and registry changes nothing), and `sync`
on a destroyed broker posts nothing. -/
theorem claim_C10 {V : Type u} (b : Broker V) (e : Event V) :
    destroy (destroy b) = destroy b ∧
    tabSyncPosts (destroy b) e = [] ∧
    (destroy b).channelOpen = false ∧
    (destroy b).subs = b.subs.clear ∧
    (destroy b).registeredClients = [] :=
  ⟨rfl, rfl, rfl, rfl, rfl⟩

-- ==========================================================================
-- Trace membership helpers
-- ==========================================================================

theorem invoke_not_mem_relayTrace {V : Type u} (b : Broker V) (event : Event V)
    (c' : String) (e' : Event V) : Act.invoke c' e' ∉ relayTrace b event := by
  unfold relayTrace
  by_cases h : b.channelOpen <;> simp [h]

theorem invoke_mem_broadcast {V : Type u} {b : Broker V} {env : Env}
    {et s : String} {d : V} {skip : Bool} {c' : String} {e' : Event V}
    (hmem : Act.invoke c' e' ∈ (broadcast b env et s d skip).2) :
    c' ∈ b.subs.getSubscribersExcept et s := by
  by_cases h1 : hookRunB b.beforeSendHooks (deepFreeze (createEvent b env et s "*" d)) = true
  · by_cases h2 : (b.subs.getSubscribersExcept et s).length = 0
    · simp [broadcast, h1, h2] at hmem
    · simp [broadcast, h1, h2, List.mem_filterMap] at hmem
      rcases hmem with ⟨a, ha, heq⟩ | ⟨_, hrel⟩
      · cases hk : b.subs.getHandler a et with
        | none => rw [hk] at heq; cases heq
        | some h =>
            rw [hk] at heq
            simp at heq
            rw [← heq.1]
            exact ha
      · exact absurd hrel (invoke_not_mem_relayTrace b _ c' e')
  · simp only [Bool.not_eq_true] at h1
    simp [broadcast, h1] at hmem

theorem relay_not_mem_sendTo_skip {V : Type u} (b : Broker V) (env : Env)
    (et s r : String) (d : V) (e' : Event V) :
    Act.relay e' ∉ (sendTo b env et s r d true).2 := by
  by_cases h1 : hookRunB b.beforeSendHooks (deepFreeze (createEvent b env et s r d)) = true
  · by_cases h2 : b.subs.isSubscribed r et = true
    · cases hh : b.subs.getHandler r et <;> simp [sendTo, h1, h2, hh]
    · simp only [Bool.not_eq_true] at h2
      simp [sendTo, h1, h2]
  · simp only [Bool.not_eq_true] at h1
    simp [sendTo, h1]

theorem relay_not_mem_broadcast_skip {V : Type u} (b : Broker V) (env : Env)
    (et s : String) (d : V) (e' : Event V) :
    Act.relay e' ∉ (broadcast b env et s d true).2 := by
  by_cases h1 : hookRunB b.beforeSendHooks (deepFreeze (createEvent b env et s "*" d)) = true
  · by_cases h2 : (b.subs.getSubscribersExcept et s).length = 0
    · simp [broadcast, h1, h2]
    · simp [broadcast, h1, h2, List.mem_filterMap]
      intro c hc
      cases hh : b.subs.getHandler c et <;> simp [hh]
  · simp only [Bool.not_eq_true] at h1
    simp [broadcast, h1]

-- ==========================================================================
-- Claim C6
-- ==========================================================================

/-- Claim C6, confirmed.  Before-send hooks run in registration (list) order
and the pipeline returns false exactly when some hook returns false with no
earlier hook doing so; a blocked `sendTo`/`broadcast` produces the fixed
blocked-NACK result and its entire observable trace is the after-send
pipeline running on that result — no Subscription Index lookup, no handler
invocation, no relay. -/
theorem claim_C6 {V : Type u} :
    (∀ (hs1 : List (BeforeSendHook V)) (hook : BeforeSendHook V)
        (hs2 : List (BeforeSendHook V)) (e : Event V),
        (∀ h' ∈ hs1, h' e ≠ Except.ok false) → hook e = Except.ok false →
        hookRunB (hs1 ++ hook :: hs2) e = false) ∧
    (∀ (hs : List (BeforeSendHook V)) (e : Event V), hookRunB hs e = false →
        ∃ hs1 hook hs2, hs = hs1 ++ hook :: hs2 ∧ hook e = Except.ok false ∧
          ∀ h' ∈ hs1, h' e ≠ Except.ok false) ∧
    (∀ (b : Broker V) (env : Env) (et s r : String) (d : V) (skip : Bool),
        hookRunB b.beforeSendHooks (createEvent b env et s r d) = false →
        sendTo b env et s r d skip =
          (createResult env Status.NACK "Event blocked by beforeSend hook" (some r) none,
           [Act.after (createResult env Status.NACK "Event blocked by beforeSend hook"
             (some r) none)])) ∧
    (∀ (b : Broker V) (env : Env) (et s : String) (d : V) (skip : Bool),
        hookRunB b.beforeSendHooks (createEvent b env et s "*" d) = false →
        broadcast b env et s d skip =
          (createResult env Status.NACK "Broadcast blocked by beforeSend hook" none none,
           [Act.after (createResult env Status.NACK "Broadcast blocked by beforeSend hook"
             none none)])) := by
  refine ⟨hookRunB_first_false, hookRunB_false_split, ?_, ?_⟩
  · intro b env et s r d skip hb
    simp [sendTo, deepFreeze, hb]
  · intro b env et s d skip hb
    simp [broadcast, deepFreeze, hb]

-- ==========================================================================
-- Claim C3
-- ==========================================================================

/-- Claim C3, confirmed.  `broadcast` never invokes the sender's own handler
(the sender is filtered out of the recipient set); with a passing before-send
pipeline it yields NACK "No subscribers for event '<eventType>'" when the
recipient set excluding the sender is empty, and otherwise ACK with the
count-bearing message while invoking the stored handler of every recipient
that has one — regardless of whether those handlers throw (the quantified
handlers include throwing ones; invocation is recorded either way). -/
theorem claim_C3 {V : Type u} (b : Broker V) (env : Env) (et s : String)
    (d : V) (skip : Bool) :
    (∀ e', Act.invoke s e' ∉ (broadcast b env et s d skip).2) ∧
    (hookRunB b.beforeSendHooks (createEvent b env et s "*" d) = true →
      (b.subs.getSubscribersExcept et s = [] →
        (broadcast b env et s d skip).1 =
          createResult env Status.NACK
            ("No subscribers for event '" ++ et ++ "'") none none) ∧
      (b.subs.getSubscribersExcept et s ≠ [] →
        ((broadcast b env et s d skip).1 =
          createResult env Status.ACK
            ("Broadcast sent to " ++ toString (b.subs.getSubscribersExcept et s).length ++
              " subscriber" ++
              (if (b.subs.getSubscribersExcept et s).length = 1 then "" else "s"))
            none none ∧
         ∀ c ∈ b.subs.getSubscribersExcept et s, ∀ h,
           b.subs.getHandler c et = some h →
           Act.invoke c (createEvent b env et s "*" d) ∈ (broadcast b env et s d skip).2))) := by
  refine ⟨?_, fun hpass => ⟨?_, fun hne => ⟨?_, ?_⟩⟩⟩
  · intro e' hmem
    exact absurd (invoke_mem_broadcast hmem) (not_mem_getSubscribersExcept_self b.subs et s)
  · intro hempty
    simp [broadcast, deepFreeze, hpass, hempty]
  · have hlen : ¬((b.subs.getSubscribersExcept et s).length = 0) := by
      simpa [List.length_eq_zero] using hne
    simp [broadcast, deepFreeze, hpass, hlen]
  · have hlen : ¬((b.subs.getSubscribersExcept et s).length = 0) := by
      simpa [List.length_eq_zero] using hne
    intro c hc h hh
    simp [broadcast, deepFreeze, hpass, hlen, List.mem_filterMap]
    exact Or.inl ⟨c, hc, by simp [hh]⟩

-- ==========================================================================
-- Claim C8
-- ==========================================================================

/-- Claim C8, confirmed.  An inbound tab-sync message carrying the local
session id is discarded entirely (no observable action); any other message
re-enters the broker through `sendTo` (specific recipient) or `broadcast`
(wildcard recipient) with the skip-relay flag set, and consequently nothing
is ever posted outward on the channel while handling it. -/
theorem claim_C8 {V : Type u} (b : Broker V) (env : Env) (msg : SyncMsg V) :
    (msg.sessionId = b.sessionId → handleMessage b env msg = []) ∧
    (msg.sessionId ≠ b.sessionId →
      (msg.event.recipient ≠ "*" → handleMessage b env msg =
        (sendTo b env msg.event.type msg.event.source msg.event.recipient
          msg.event.data true).2) ∧
      (msg.event.recipient = "*" → handleMessage b env msg =
        (broadcast b env msg.event.type msg.event.source msg.event.data true).2) ∧
      (∀ e', Act.relay e' ∉ handleMessage b env msg)) := by
  refine ⟨fun hself => by simp [handleMessage, hself], fun hother => ⟨?_, ?_, ?_⟩⟩
  · intro hrec
    simp [handleMessage, hother, handleTabSyncedEvent, hrec]
  · intro hrec
    simp [handleMessage, hother, handleTabSyncedEvent, hrec]
  · intro e'
    unfold handleMessage
    rw [if_neg hother]
    unfold handleTabSyncedEvent
    by_cases hrec : msg.event.recipient = "*"
    · rw [if_neg (by simp [hrec])]
      exact relay_not_mem_broadcast_skip b env msg.event.type msg.event.source
        msg.event.data e'
    · rw [if_pos hrec]
      exact relay_not_mem_sendTo_skip b env msg.event.type msg.event.source
        msg.event.recipient msg.event.data e'

-- ==========================================================================
-- Witnesses for the broker claims
-- ==========================================================================

theorem claim_C3_witness :
    (broadcast b0 env0 "evt" "A" 3 false).1.status = Status.ACK ∧
    (broadcast b0 env0 "evt" "A" 3 false).1.message = "Broadcast sent to 2 subscribers" ∧
    Act.invoke "B" (createEvent b0 env0 "evt" "A" "*" 3) ∈
      (broadcast b0 env0 "evt" "A" 3 false).2 := by
  have h := (claim_C3 b0 env0 "evt" "A" 3 false).2 rfl
  have h2 := h.2 (by decide)
  refine ⟨?_, ?_, ?_⟩
  · rw [h2.1]
    rfl
  · rw [h2.1]
    rfl
  · exact h2.2 "B" (by decide) hOk rfl

theorem claim_C4_witness :
    (sendTo b0 env0 "evt" "A" "B" 3 false).1.status = Status.ACK ∧
    (sendTo b0 env0 "evt" "A" "B" 3 false).1.data = some 7 ∧
    (sendTo b0 env0 "evt" "A" "C" 3 false).1.status = Status.NACK ∧
    (sendTo b0 env0 "evt" "A" "C" 3 false).1.message = "Event not handled by 'C'" := by
  have hB := (claim_C4 b0 env0 "evt" "A" "B" 3 false hOk rfl rfl rfl).1 (some 7) rfl
  have hC := (claim_C4 b0 env0 "evt" "A" "C" 3 false hBad rfl rfl rfl).2 rfl
  exact ⟨hB.1, hB.2.2, hC.1, hC.2.1⟩

theorem claim_C6_witness :
    hookRunB [hookPassNat, hookBlockNat] (createEvent b0 env0 "evt" "A" "B" 3) = false ∧
    sendTo b1 env0 "evt" "A" "B" 3 false =
      (createResult env0 Status.NACK "Event blocked by beforeSend hook" (some "B") none,
       [Act.after (createResult env0 Status.NACK "Event blocked by beforeSend hook"
         (some "B") none)]) := by
  constructor
  · exact (@claim_C6 Nat).1 [hookPassNat] hookBlockNat []
      (createEvent b0 env0 "evt" "A" "B" 3)
      (by
        intro h' hm
        rw [List.mem_singleton] at hm
        subst hm
        intro hc
        simp [hookPassNat] at hc)
      rfl
  · exact (@claim_C6 Nat).2.2.1 b1 env0 "evt" "A" "B" 3 false rfl

theorem claim_C7_witness :
    (sendTo b0 env0 "evt" "A" "Z" 3 false).1.status = Status.NACK ∧
    (sendTo b0 env0 "evt" "A" "Z" 3 false).1.message =
      "Client 'Z' not subscribed to 'evt'" := by
  have h := (claim_C7 b0 env0 "evt" "A" "Z" 3 false rfl rfl).1
  constructor
  · rw [h]
    rfl
  · rw [h]
    rfl

theorem claim_C8_witness :
    handleMessage b0 env0 msgSelf = [] ∧
    Act.relay (createEvent b0 env0 "evt" "A" "B" 3) ∉ handleMessage b0 env0 msgOther := by
  constructor
  · exact (claim_C8 b0 env0 msgSelf).1 rfl
  · exact ((claim_C8 b0 env0 msgOther).2 (by decide)).2.2 _
